import Mathlib

/-!
# Verification of the biobench orchestration and reporting engine

A shallow embedding of `benchmark.py` and `biobench/__init__.py`, together
with spec-modelled stand-ins for the parts of the repository (the registry
internals and the report-statistics methods of `biobench.interfaces`) that the
claims depend on but whose source is not available.  Machine integers do not
occur; scores are rationals, posix timestamps are naturals.
-/

namespace Biobench

/-- `os.path.join dir file` for the two-component calls made by the code. -/
def pathJoin (dir file : String) : String := dir ++ "/" ++ file

/-- One per-example result of a benchmark report: an example id, a score and
an optional split label (spec §3, `interfaces.BenchmarkReport.examples`). -/
structure ReportExample where
  exampleId : String
  score : ℚ
  split : Option String
deriving DecidableEq

/-- `interfaces.BenchmarkReport`: the structured result of one task run.
The derived statistics (`get_mean_score`, `get_confidence_interval`) are
modelled separately below. -/
structure BenchmarkReport where
  name : String
  examples : List ReportExample
  splits : List (String × ℚ)
deriving DecidableEq

/-- The `jobs` literal of `Args`: `"slurm" | "process" | "none"`. -/
inductive Jobs where
  | slurm
  | process
  | none
deriving DecidableEq

/-- A task-specific configuration record.  Each task's `Args` differs, but all
carry the accelerator field that `main` injects; only that field matters to
the orchestration engine. -/
structure TaskArgs where
  device : String
deriving DecidableEq

/-- `Args` from `benchmark.py`: parameters for one run. -/
structure Args where
  jobs : Jobs
  model_org : String
  model_ckpt : String
  device : String
  newt_run : Bool
  newt_args : TaskArgs
  kabr_run : Bool
  kabr_args : TaskArgs
  plantnet_run : Bool
  plantnet_args : TaskArgs
  iwildcam_run : Bool
  iwildcam_args : TaskArgs
  report_to : String
deriving DecidableEq

/-- The dataclass field defaults of `Args`:  `jobs = "none"`,
`model_org = "open_clip"`, `model_ckpt = "RN50/openai"`, `device = "cuda"`,
every benchmark disabled, and `report_to = os.path.join(".", "reports")`. -/
def Args.default : Args where
  jobs := Jobs.none
  model_org := "open_clip"
  model_ckpt := "RN50/openai"
  device := "cuda"
  newt_run := false
  newt_args := ⟨"cuda"⟩
  kabr_run := false
  kabr_args := ⟨"cuda"⟩
  plantnet_run := false
  plantnet_args := ⟨"cuda"⟩
  iwildcam_run := false
  iwildcam_args := ⟨"cuda"⟩
  report_to := pathJoin "." "reports"

/-- `Args.report_path` from `benchmark.py` lines 79-81:

```
def report_path(self, report):
    posix = int(time.time())
    return os.path.join(args.report_to, f"{posix}.jsonl")
```

The Python body reads the module-global `args`, not `self`, and calls
`time.time()` afresh on every invocation.  The embedding passes the global
`Args` value and the posix second at call time explicitly; the receiver and
the report argument are bound but unused, exactly as in the source. -/
def Args.report_path (_self : Args) (globalArgs : Args) (_report : BenchmarkReport)
    (posix : ℕ) : String :=
  pathJoin globalArgs.report_to (Nat.repr posix ++ ".jsonl")

/-- The file one call of `save` (lines 118-119) appends its JSON line to:
`save` receives `args` as a parameter and calls `args.report_path(report)`,
which derives the posix second at that moment. -/
def saveTarget (callArgs globalArgs : Args) (report : BenchmarkReport) (posix : ℕ) : String :=
  callArgs.report_path globalArgs report posix

/-! ## Backbone registry

`biobench/__init__.py` registers exactly two backbones at import time:

```
register_vision_backbone("timm-vit", third_party_models.TimmVit)
register_vision_backbone("open-clip", third_party_models.OpenClip)
```

The registry internals live in `biobench.registry`, whose source is not
available; they are modelled from the spec. -/

/-- The error taxonomy of the pre-dispatch phase (spec §4.1, §7). -/
inductive MainError where
  | notImplemented (msg : String)
  | unknownBackbone (org : String)
  | duplicateRegistration (org : String)
deriving DecidableEq

/-- Modelled from the spec: `biobench.registry` keeps a process-wide mapping
from organization name to loader.  A loader is represented by an opaque tag
naming the backbone class it would construct. -/
abbrev Registry : Type := List (String × String)

/-- Modelled from the spec: `register(name, loader)` associates a unique name
with a loader; re-registering an existing name fails with a
duplicate-registration error. -/
def register_vision_backbone (name loader : String) (reg : Registry) :
    Except MainError Registry :=
  if (reg.map Prod.fst).contains name then
    Except.error (MainError.duplicateRegistration name)
  else
    Except.ok (reg ++ [(name, loader)])

/-- Modelled from the spec: `list_vision_backbones()` produces the closed set
of valid names, in registration order. -/
def list_vision_backbones (reg : Registry) : List String := reg.map Prod.fst

/-- Modelled from the spec: `load_vision_backbone(name, ckpt)` looks up the
loader and fails with an unknown-backbone error when `name` is not
registered.  The checkpoint id is irrelevant to resolution. -/
def load_vision_backbone (reg : Registry) (org : String) : Except MainError String :=
  match reg.find? (fun p => p.1 == org) with
  | some p => Except.ok p.2
  | Option.none => Except.error (MainError.unknownBackbone org)

/-- The registry as populated by the two `register_vision_backbone` calls in
`biobench/__init__.py`, starting from an empty registry. -/
def builtinRegistryE : Except MainError Registry :=
  match register_vision_backbone "timm-vit" "TimmVit" [] with
  | Except.ok r => register_vision_backbone "open-clip" "OpenClip" r
  | Except.error e => Except.error e

/-! ## `main`: pre-dispatch phase -/

/-- An observable side effect of `main` before the Collecting phase: loading
the backbone, or submitting one job to the executor. -/
inductive Event where
  | loadedBackbone (org ckpt : String)
  | submitted (task : String)
deriving DecidableEq

/-- The tasks `main` submits, in source order (lines 148-160): one job per
enabled benchmark. -/
def enabledTasks (a : Args) : List String :=
  (if a.newt_run then ["newt"] else []) ++
  (if a.kabr_run then ["kabr"] else []) ++
  (if a.plantnet_run then ["plantnet"] else []) ++
  (if a.iwildcam_run then ["iwildcam"] else [])

/-- The pre-dispatch phase of `main` (lines 132-160), with its side effects
made explicit as an event trace.  The executor is selected first: the
`"slurm"` branch raises `NotImplementedError("submitit not tested yet!")`
before anything else happens.  Only then is the backbone loaded, and only
then is one job submitted per enabled task. -/
def mainTrace (reg : Registry) (a : Args) : Except MainError Unit × List Event :=
  match a.jobs with
  | Jobs.slurm => (Except.error (MainError.notImplemented "submitit not tested yet!"), [])
  | _ =>
    match load_vision_backbone reg a.model_org with
    | Except.error e => (Except.error e, [])
    | Except.ok _ =>
      (Except.ok (),
        Event.loadedBackbone a.model_org a.model_ckpt ::
          (enabledTasks a).map Event.submitted)

/-! ## The Collecting phase

`main` lines 163-169:

```
for future in concurrent.futures.as_completed(jobs):
    if future.exception():
        logger.warning("Error running job: %s", future.exception())
        continue
    report = future.result()
    save(args, report)
```

A drained job is either a report (the task returned) or an error message (the
task raised). -/

/-- The Collecting loop, with `save` assumed not to raise: a future carrying
an exception is logged and skipped, every other future's report is saved.
Returns the saved reports and the logged errors, each in arrival order. -/
def collect : List (Except String BenchmarkReport) → List BenchmarkReport × List String
  | [] => ([], [])
  | Except.ok r :: rest => ((r :: (collect rest).1), (collect rest).2)
  | Except.error m :: rest => ((collect rest).1, (m :: (collect rest).2))

/-- The reports of the successfully completed jobs, in order. -/
def okList (outs : List (Except String BenchmarkReport)) : List BenchmarkReport :=
  outs.filterMap fun o =>
    match o with
    | Except.ok r => some r
    | Except.error _ => Option.none

/-- The error messages of the failed jobs, in order. -/
def errList (outs : List (Except String BenchmarkReport)) : List String :=
  outs.filterMap fun o =>
    match o with
    | Except.ok _ => Option.none
    | Except.error m => some m

/-- The Collecting loop with a fallible `save`, exactly as in the source:
`save(args, report)` is called with no exception handler inside the `for`
loop, so a raise from `save` propagates out of the loop and out of `main`.
`saveOk r = false` means writing report `r` raises. -/
def collectSave (saveOk : BenchmarkReport → Bool) :
    List (Except String BenchmarkReport) → Except String (List BenchmarkReport × List String)
  | [] => Except.ok ([], [])
  | Except.error m :: rest =>
    match collectSave saveOk rest with
    | Except.ok (s, e) => Except.ok (s, m :: e)
    | Except.error w => Except.error w
  | Except.ok r :: rest =>
    if saveOk r then
      match collectSave saveOk rest with
      | Except.ok (s, e) => Except.ok (r :: s, e)
      | Except.error w => Except.error w
    else Except.error ("save failed: " ++ r.name)

/-! ## Executors -/

/-- A `concurrent.futures.Future` as the Collecting loop sees it: an outcome
together with the moment the future completed. -/
structure Future where
  outcome : Except String BenchmarkReport
  arrival : ℕ

/-- `DummyExecutor.submit` (lines 87-102) runs the task immediately in the
calling process and returns an already-completed future, capturing a raise
via `set_exception`.  Submitting a list of tasks therefore completes the
`k`-th future at logical time `base + k`, before the next submission.  Tasks
are embedded as their evaluation outcome. -/
def dummySubmitAllFrom (base : ℕ) : List (Except String BenchmarkReport) → List Future
  | [] => []
  | t :: ts => ⟨t, base⟩ :: dummySubmitAllFrom (base + 1) ts

/-- All futures produced by submitting `tasks` to the `DummyExecutor`, in
submission order. -/
def dummySubmitAll (tasks : List (Except String BenchmarkReport)) : List Future :=
  dummySubmitAllFrom 0 tasks

/-- `concurrent.futures.as_completed`: yields completed futures in arrival
order, modelled as a stable sort on completion time. -/
def asCompleted (fs : List Future) : List Future :=
  fs.mergeSort fun a b => decide (a.arrival ≤ b.arrival)

/-! ## Report statistics

`BenchmarkReport.get_mean_score` and `get_confidence_interval` live in
`biobench.interfaces`, whose source is not available; they are modelled from
the spec (§4.4). -/

/-- The arithmetic mean of a list of rationals (`0` on the empty list, which
callers must reject per the spec). -/
def meanQ (xs : List ℚ) : ℚ := xs.sum / xs.length

/-- Modelled from the spec: `get_mean_score` is the arithmetic mean of the
per-example scores. -/
def BenchmarkReport.get_mean_score (r : BenchmarkReport) : ℚ :=
  meanQ (r.examples.map ReportExample.score)

/-- The 0-based rank of the p-th percentile in a sample of n values by the
nearest-rank method: ⌈p/100 · n⌉ as a 1-based rank, clamped into range. -/
def rankIndex (p : ℚ) (n : ℕ) : ℕ :=
  min (n - 1) ((max 1 ⌈p * n / 100⌉).toNat - 1)

/-- Modelled from the spec: the p-th percentile of a sample by the
nearest-rank method — the ⌈p/100 · n⌉-th smallest value. -/
def percentile (p : ℚ) (xs : List ℚ) : ℚ :=
  let s := xs.mergeSort fun a b => decide (a ≤ b)
  s.getD (rankIndex p s.length) 0

/-- Modelled from the spec: one bootstrap resample mean per resample.  A
resample is a list of indices into `scores`, drawn with replacement; the
randomness source is left abstract, so any list of valid index draws is a
possible resampling outcome. -/
def resampleMeans (scores : List ℚ) (choices : List (List ℕ)) : List ℚ :=
  choices.map fun c => meanQ (c.map fun i => scores.getD i 0)

/-- Modelled from the spec: `get_confidence_interval` — resample `examples`
with replacement B times (`choices` lists the B index draws), compute the
mean score of each resample, and take the 2.5th and 97.5th percentiles of the
resample-mean distribution as (lower, upper). -/
def bootstrapCI (scores : List ℚ) (choices : List (List ℕ)) : ℚ × ℚ :=
  let ms := resampleMeans scores choices
  (percentile (5 / 2) ms, percentile (195 / 2) ms)

/-! ## Concrete data used by witnesses and counterexamples -/

/-- A one-example report as the NeWT task would return it. -/
def reportNewt : BenchmarkReport := ⟨"newt", [⟨"img-001", 1, Option.none⟩], []⟩

/-- A one-example report as the KABR task would return it. -/
def reportKabr : BenchmarkReport := ⟨"kabr", [⟨"clip-007", 1, Option.none⟩], []⟩

/-- A contract-violating report: a task returned normally but with an empty
`examples` sequence. -/
def emptyExamplesReport : BenchmarkReport := ⟨"plantnet", [], []⟩

/-- A write-failure scenario: persisting the NeWT report raises (disk full,
permission), persisting anything else succeeds. -/
def savePermissionDenied (r : BenchmarkReport) : Bool := r.name != "newt"

/-- The registry value produced by the two startup registrations. -/
def builtinRegistry : Registry := [("timm-vit", "TimmVit"), ("open-clip", "OpenClip")]

/-- A run configuration requesting the slurm backend. -/
def slurmArgs : Args := { Args.default with jobs := Jobs.slurm }

/-- Three jobs in submission order: NeWT succeeds, the second task raises,
KABR succeeds. -/
def submittedJobs : List (Except String BenchmarkReport) :=
  [Except.ok reportNewt, Except.error "boom", Except.ok reportKabr]

/-- The same three jobs in one possible arrival order of the multi-process
executor. -/
def arrivedJobs : List (Except String BenchmarkReport) :=
  [Except.ok reportKabr, Except.ok reportNewt, Except.error "boom"]

deriving instance DecidableEq for Except

/-! ## Theorems -/

/-- C9: `Args.report_path` ignores both its receiver and its report argument;
the path is computed from the module-global `args` and the wall-clock time
alone, so `save` appends under the global configuration's `report_to`
directory, not the directory of the `Args` value `main` was given. -/
theorem report_path_uses_global_args (a a' g : Args) (r r' : BenchmarkReport) (t : ℕ) :
    a.report_path g r t = a'.report_path g r' t ∧
    saveTarget a g r t = pathJoin g.report_to (Nat.repr t ++ ".jsonl") :=
  ⟨rfl, rfl⟩

/-- C1: the save target is re-derived from the wall clock at every `save`
call, not fixed once per run: two saves of one run at posix seconds 100 and
101 append to the distinct files `./reports/100.jsonl` and
`./reports/101.jsonl`. -/
theorem saveTarget_rederived_per_call :
    saveTarget Args.default Args.default reportNewt 100 = "./reports/100.jsonl" ∧
    saveTarget Args.default Args.default reportKabr 101 = "./reports/101.jsonl" ∧
    saveTarget Args.default Args.default reportNewt 100 ≠
      saveTarget Args.default Args.default reportKabr 101 := by
  refine ⟨rfl, rfl, ?_⟩
  decide

/-- C8: requesting the slurm backend fails with `NotImplementedError` during
executor selection, before the backbone is loaded and before any job is
submitted: the run errors with an empty event trace, whatever the registry
and the rest of the configuration. -/
theorem slurm_fails_before_load_and_submit (reg : Registry) (a : Args)
    (h : a.jobs = Jobs.slurm) :
    mainTrace reg a =
      (Except.error (MainError.notImplemented "submitit not tested yet!"), []) := by
  unfold mainTrace
  rw [h]

/-- Witness for C8 at a concrete configuration. -/
theorem slurm_fails_witness :
    slurmArgs.jobs = Jobs.slurm ∧
    mainTrace builtinRegistry slurmArgs =
      (Except.error (MainError.notImplemented "submitit not tested yet!"), []) :=
  ⟨rfl, slurm_fails_before_load_and_submit builtinRegistry slurmArgs rfl⟩

/-- C10: startup registers exactly `timm-vit` and `open-clip`, while the
`Args` default `model_org` is `open_clip` (underscore), which is therefore
not a registered backbone name: resolving it fails, and a run under the
default configuration aborts with an unknown-backbone error before any job
is submitted. -/
theorem default_model_org_not_registered :
    builtinRegistryE = Except.ok builtinRegistry ∧
    list_vision_backbones builtinRegistry = ["timm-vit", "open-clip"] ∧
    Args.default.model_org = "open_clip" ∧
    "open_clip" ∉ list_vision_backbones builtinRegistry ∧
    load_vision_backbone builtinRegistry "open_clip" =
      Except.error (MainError.unknownBackbone "open_clip") ∧
    mainTrace builtinRegistry Args.default =
      (Except.error (MainError.unknownBackbone "open_clip"), []) := by
  refine ⟨rfl, rfl, rfl, ?_, rfl, rfl⟩
  decide

/-- C5, counterexample: a report with empty `examples` returned normally is
not logged as a job failure and not excluded: the Collecting loop forwards
it to `save`, because only a future carrying an exception is diverted. -/
theorem empty_report_forwarded_to_save :
    emptyExamplesReport.examples = [] ∧
    collect [Except.ok emptyExamplesReport] = ([emptyExamplesReport], []) ∧
    (collect [Except.ok emptyExamplesReport]).1 ≠ [] := by
  refine ⟨rfl, rfl, ?_⟩
  decide

/-- C5, amended: the Collecting loop diverts exactly the jobs whose future
carries an exception; every normally-returned report, empty `examples`
included, is forwarded to `save` and never logged as a job failure. -/
theorem collect_diverts_only_exceptions (r : BenchmarkReport) (m : String)
    (rest : List (Except String BenchmarkReport)) :
    collect (Except.ok r :: rest) = (r :: (collect rest).1, (collect rest).2) ∧
    collect (Except.error m :: rest) = ((collect rest).1, m :: (collect rest).2) :=
  ⟨rfl, rfl⟩

/-- C6, counterexample: with two successful jobs and a save that raises on
the first collected report, the exception unwinds out of the Collecting
loop: the second report — whose own save would have succeeded — is never
persisted. -/
theorem save_failure_loses_remaining_reports :
    savePermissionDenied reportNewt = false ∧
    savePermissionDenied reportKabr = true ∧
    collectSave savePermissionDenied [Except.ok reportNewt, Except.ok reportKabr] =
      Except.error ("save failed: " ++ reportNewt.name) := by
  refine ⟨?_, ?_, rfl⟩ <;> decide

theorem okList_cons_ok (r : BenchmarkReport) (rest : List (Except String BenchmarkReport)) :
    okList (Except.ok r :: rest) = r :: okList rest := rfl

theorem okList_cons_error (m : String) (rest : List (Except String BenchmarkReport)) :
    okList (Except.error m :: rest) = okList rest := rfl

theorem errList_cons_ok (r : BenchmarkReport) (rest : List (Except String BenchmarkReport)) :
    errList (Except.ok r :: rest) = errList rest := rfl

theorem errList_cons_error (m : String) (rest : List (Except String BenchmarkReport)) :
    errList (Except.error m :: rest) = m :: errList rest := rfl

/-- C6, amended: a save failure is not contained by the Collecting loop.
When every report drained before some job saves fine and that job's report
fails to save, the loop terminates with the save error: the jobs after it
are never drained and their reports are not persisted. -/
theorem collectSave_unwinds_at_first_failure (saveOk : BenchmarkReport → Bool)
    (pre post : List (Except String BenchmarkReport)) (rbad : BenchmarkReport)
    (hpre : ∀ r ∈ okList pre, saveOk r = true) (hbad : saveOk rbad = false) :
    collectSave saveOk (pre ++ Except.ok rbad :: post) =
      Except.error ("save failed: " ++ rbad.name) := by
  induction pre with
  | nil => simp [collectSave, hbad]
  | cons o rest ih =>
    have hrest : ∀ r ∈ okList rest, saveOk r = true := by
      intro r hr
      cases o with
      | ok r0 => exact hpre r (by rw [okList_cons_ok]; exact List.mem_cons_of_mem _ hr)
      | error m => exact hpre r (by rw [okList_cons_error]; exact hr)
    cases o with
    | ok r0 =>
      have h0 : saveOk r0 = true :=
        hpre r0 (by rw [okList_cons_ok]; exact List.mem_cons_self _ _)
      simp [collectSave, h0, ih hrest]
    | error m => simp [collectSave, ih hrest]

/-- Witness for the amended C6: one successful save, then a failing one,
with a third job still in flight. -/
theorem collectSave_unwinds_witness :
    (∀ r ∈ okList [Except.ok reportKabr], savePermissionDenied r = true) ∧
    savePermissionDenied reportNewt = false ∧
    collectSave savePermissionDenied
        ([Except.ok reportKabr] ++ Except.ok reportNewt :: [Except.ok reportKabr]) =
      Except.error ("save failed: " ++ reportNewt.name) :=
  ⟨by decide, by decide,
    collectSave_unwinds_at_first_failure savePermissionDenied
      [Except.ok reportKabr] [Except.ok reportKabr] reportNewt (by decide) (by decide)⟩

theorem collect_eq_okList_errList (outs : List (Except String BenchmarkReport)) :
    collect outs = (okList outs, errList outs) := by
  induction outs with
  | nil => rfl
  | cons o rest ih =>
    cases o with
    | ok r => simp [collect, okList_cons_ok, errList_cons_ok, ih]
    | error m => simp [collect, okList_cons_error, errList_cons_error, ih]

theorem okList_length_add_errList_length (outs : List (Except String BenchmarkReport)) :
    (okList outs).length + (errList outs).length = outs.length := by
  induction outs with
  | nil => rfl
  | cons o rest ih =>
    cases o with
    | ok r =>
      rw [okList_cons_ok, errList_cons_ok]
      simp only [List.length_cons]
      omega
    | error m =>
      rw [okList_cons_error, errList_cons_error]
      simp only [List.length_cons]
      omega

/-- C3: drain N jobs of which exactly one raised, in any arrival order: the
saved reports are a permutation of the N-1 successful reports — none lost,
none duplicated — and exactly one failure is logged while the run goes on to
the end of the loop. -/
theorem one_failure_collects_all_others (submitted outs : List (Except String BenchmarkReport))
    (hperm : outs.Perm submitted) (hone : (errList submitted).length = 1) :
    (collect outs).1.Perm (okList submitted) ∧
    (collect outs).1.length = submitted.length - 1 ∧
    (collect outs).2.length = 1 := by
  have hok : (okList outs).Perm (okList submitted) := hperm.filterMap _
  have herr : (errList outs).Perm (errList submitted) := hperm.filterMap _
  rw [collect_eq_okList_errList]
  refine ⟨hok, ?_, ?_⟩
  · show (okList outs).length = submitted.length - 1
    have h1 := okList_length_add_errList_length submitted
    have h2 := hok.length_eq
    have h3 := herr.length_eq
    omega
  · show (errList outs).length = 1
    rw [herr.length_eq, hone]

/-- Witness for C3: three submitted jobs, one raising, drained in a shuffled
arrival order. -/
theorem one_failure_witness :
    (arrivedJobs.Perm submittedJobs ∧ (errList submittedJobs).length = 1) ∧
    ((collect arrivedJobs).1.Perm (okList submittedJobs) ∧
     (collect arrivedJobs).1.length = submittedJobs.length - 1 ∧
     (collect arrivedJobs).2.length = 1) :=
  ⟨⟨by decide, by decide⟩,
    one_failure_collects_all_others submittedJobs arrivedJobs (by decide) (by decide)⟩

theorem dummySubmitAllFrom_outcomes (base : ℕ) (tasks : List (Except String BenchmarkReport)) :
    (dummySubmitAllFrom base tasks).map Future.outcome = tasks := by
  induction tasks generalizing base with
  | nil => rfl
  | cons t ts ih => simp [dummySubmitAllFrom, ih]

theorem dummySubmitAllFrom_arrival_le (base : ℕ) (tasks : List (Except String BenchmarkReport)) :
    ∀ f ∈ dummySubmitAllFrom base tasks, base ≤ f.arrival := by
  induction tasks generalizing base with
  | nil => intro f hf; cases hf
  | cons t ts ih =>
    intro f hf
    rcases List.mem_cons.mp hf with h | h
    · rw [h]
    · exact le_trans (Nat.le_succ base) (ih (base + 1) f h)

theorem dummySubmitAllFrom_sorted (base : ℕ) (tasks : List (Except String BenchmarkReport)) :
    (dummySubmitAllFrom base tasks).Pairwise
      (fun a b => decide (a.arrival ≤ b.arrival) = true) := by
  induction tasks generalizing base with
  | nil => exact List.Pairwise.nil
  | cons t ts ih =>
    refine List.Pairwise.cons ?_ (ih (base + 1))
    intro b hb
    have hb1 := dummySubmitAllFrom_arrival_le (base + 1) ts b hb
    simp only [decide_eq_true_eq]
    omega

/-- C4: with the synchronous `DummyExecutor`, every future is already
completed when `submit` returns, completion times follow submission order,
and draining them through `as_completed` therefore yields the job outcomes
in exactly the order the jobs were submitted, for every task list. -/
theorem dummy_executor_yields_submission_order
    (tasks : List (Except String BenchmarkReport)) :
    (asCompleted (dummySubmitAll tasks)).map Future.outcome = tasks ∧
    collect ((asCompleted (dummySubmitAll tasks)).map Future.outcome) = collect tasks := by
  have h : asCompleted (dummySubmitAll tasks) = dummySubmitAll tasks :=
    List.mergeSort_of_sorted (dummySubmitAllFrom_sorted 0 tasks)
  rw [h, dummySubmitAll, dummySubmitAllFrom_outcomes]
  exact ⟨rfl, rfl⟩

theorem meanQ_const (xs : List ℚ) (v : ℚ) (hne : xs ≠ []) (hall : ∀ x ∈ xs, x = v) :
    meanQ xs = v := by
  have hsum : xs.sum = xs.length • v := List.sum_eq_card_nsmul xs v hall
  have hlen : (0 : ℚ) < (xs.length : ℚ) := by
    have h := List.length_pos.mpr hne
    exact_mod_cast h
  rw [meanQ, hsum, nsmul_eq_mul, mul_div_cancel_left₀ v (ne_of_gt hlen)]

theorem mergeSort_le_sorted (xs : List ℚ) :
    (xs.mergeSort fun a b => decide (a ≤ b)).Pairwise
      (fun a b => decide (a ≤ b) = true) := by
  apply List.sorted_mergeSort
  · intro a b c hab hbc
    simp only [decide_eq_true_eq] at hab hbc ⊢
    exact le_trans hab hbc
  · intro a b
    simp only [Bool.or_eq_true, decide_eq_true_eq]
    exact le_total a b

theorem sorted_getD_mono (s : List ℚ)
    (hsort : s.Pairwise (fun a b => decide (a ≤ b) = true))
    (i j : ℕ) (hij : i ≤ j) (hj : j < s.length) : s.getD i 0 ≤ s.getD j 0 := by
  have hi : i < s.length := Nat.lt_of_le_of_lt hij hj
  rw [List.getD_eq_getElem _ _ hi, List.getD_eq_getElem _ _ hj]
  rcases eq_or_lt_of_le hij with h | h
  · subst h
    exact le_refl _
  · have hp := List.pairwise_iff_get.mp hsort ⟨i, hi⟩ ⟨j, hj⟩ h
    simpa using hp

theorem rankIndex_lt (p : ℚ) (n : ℕ) (hn : 0 < n) : rankIndex p n < n :=
  lt_of_le_of_lt (min_le_left _ _) (Nat.sub_lt hn one_pos)

theorem rankIndex_mono (n : ℕ) {p q : ℚ} (hpq : p ≤ q) : rankIndex p n ≤ rankIndex q n := by
  unfold rankIndex
  have h1 : p * n / 100 ≤ q * n / 100 := by
    have hn : (0 : ℚ) ≤ (n : ℚ) := Nat.cast_nonneg n
    gcongr
  have h2 : ⌈p * (n : ℚ) / 100⌉ ≤ ⌈q * (n : ℚ) / 100⌉ := Int.ceil_mono h1
  have h3 := max_le_max (le_refl (1 : ℤ)) h2
  have h4 := Int.toNat_le_toNat h3
  exact min_le_min (le_refl _) (Nat.sub_le_sub_right h4 1)

theorem percentile_mono (xs : List ℚ) (hne : xs ≠ []) {p q : ℚ} (hpq : p ≤ q) :
    percentile p xs ≤ percentile q xs := by
  have hpos : 0 < (xs.mergeSort fun a b => decide (a ≤ b)).length := by
    simpa using List.length_pos.mpr hne
  exact sorted_getD_mono _ (mergeSort_le_sorted xs) _ _
    (rankIndex_mono _ hpq) (rankIndex_lt q _ hpos)

theorem percentile_const (p : ℚ) (xs : List ℚ) (v : ℚ) (hne : xs ≠ [])
    (hall : ∀ x ∈ xs, x = v) : percentile p xs = v := by
  have hpos : 0 < (xs.mergeSort fun a b => decide (a ≤ b)).length := by
    simpa using List.length_pos.mpr hne
  have hidx := rankIndex_lt p _ hpos
  show (xs.mergeSort fun a b => decide (a ≤ b)).getD
    (rankIndex p (xs.mergeSort fun a b => decide (a ≤ b)).length) 0 = v
  rw [List.getD_eq_getElem _ _ hidx]
  exact hall _ (List.mem_mergeSort.mp (List.getElem_mem hidx))

/-- C2, amended: whatever the resampling outcome, the interval is ordered:
lower ≤ upper. -/
theorem bootstrap_lower_le_upper (scores : List ℚ) (choices : List (List ℕ))
    (hc : choices ≠ []) :
    (bootstrapCI scores choices).1 ≤ (bootstrapCI scores choices).2 := by
  have hne : resampleMeans scores choices ≠ [] := by
    simpa [resampleMeans] using hc
  exact percentile_mono (resampleMeans scores choices) hne (by norm_num)

/-- Witness for the amended C2 at a concrete sample and resampling. -/
theorem bootstrap_lower_le_upper_witness :
    ([[0], [1]] : List (List ℕ)) ≠ [] ∧
    (bootstrapCI [0, 1] [[0], [1]]).1 ≤ (bootstrapCI [0, 1] [[0], [1]]).2 :=
  ⟨by decide, bootstrap_lower_le_upper [0, 1] [[0], [1]] (by decide)⟩

/-- C2, counterexample: on the two-example score list `[0, 1]` a resampling
outcome in which every resample draws only example 1 yields resample means
`[1, 1]`, hence the interval `(1, 1)`, and `lower = 1 > mean_score = 1/2`:
`lower ≤ mean_score ≤ upper` does not hold for every resampling outcome. -/
theorem bootstrap_interval_can_miss_mean :
    meanQ [0, 1] = 1 / 2 ∧
    bootstrapCI [0, 1] [[1, 1], [1, 1]] = (1, 1) ∧
    ¬(bootstrapCI [0, 1] [[1, 1], [1, 1]]).1 ≤ meanQ [0, 1] := by
  have hr : resampleMeans [0, 1] [[1, 1], [1, 1]] = [1, 1] := by
    norm_num [resampleMeans, meanQ]
  have hall : ∀ x ∈ ([1, 1] : List ℚ), x = 1 := by
    intro x hx
    rcases List.mem_cons.mp hx with h | h
    · exact h
    · simpa using h
  have hlo : percentile (5 / 2) [1, 1] = 1 :=
    percentile_const _ _ 1 (by simp) hall
  have hhi : percentile (195 / 2) [1, 1] = 1 :=
    percentile_const _ _ 1 (by simp) hall
  have hm : meanQ [0, 1] = 1 / 2 := by norm_num [meanQ]
  have hci : bootstrapCI [0, 1] [[1, 1], [1, 1]] = (1, 1) := by
    show (percentile (5 / 2) (resampleMeans [0, 1] [[1, 1], [1, 1]]),
      percentile (195 / 2) (resampleMeans [0, 1] [[1, 1], [1, 1]])) = (1, 1)
    rw [hr, hlo, hhi]
  refine ⟨hm, hci, ?_⟩
  rw [hci, hm]
  norm_num

/-- C7: when all scores are identical every resample mean equals that common
value, so both percentiles and the mean collapse to it:
`lower = upper = mean_score`.  Single-element example sets are the special
case of a one-element score list. -/
theorem identical_scores_degenerate_interval (scores : List ℚ)
    (choices : List (List ℕ)) (v : ℚ) (hs : scores ≠ []) (hc : choices ≠ [])
    (hvalid : ∀ c ∈ choices, c ≠ [] ∧ ∀ i ∈ c, i < scores.length)
    (hall : ∀ x ∈ scores, x = v) :
    bootstrapCI scores choices = (meanQ scores, meanQ scores) ∧ meanQ scores = v := by
  have hmean : meanQ scores = v := meanQ_const scores v hs hall
  have hms : ∀ m ∈ resampleMeans scores choices, m = v := by
    intro m hm
    rcases List.mem_map.mp hm with ⟨c, hcmem, rfl⟩
    obtain ⟨hcne, hcidx⟩ := hvalid c hcmem
    apply meanQ_const
    · simpa using hcne
    · intro x hx
      rcases List.mem_map.mp hx with ⟨i, hi, rfl⟩
      have hilt := hcidx i hi
      rw [List.getD_eq_getElem _ _ hilt]
      exact hall _ (List.getElem_mem hilt)
  have hmsne : resampleMeans scores choices ≠ [] := by
    simpa [resampleMeans] using hc
  refine ⟨?_, hmean⟩
  show (percentile (5 / 2) (resampleMeans scores choices),
    percentile (195 / 2) (resampleMeans scores choices)) = (meanQ scores, meanQ scores)
  rw [percentile_const _ _ v hmsne hms, percentile_const _ _ v hmsne hms, hmean]

/-- Witness for C7 at a single-example score list with three resamples. -/
theorem identical_scores_witness :
    (([2 / 3] : List ℚ) ≠ [] ∧ ([[0], [0], [0]] : List (List ℕ)) ≠ [] ∧
      (∀ c ∈ ([[0], [0], [0]] : List (List ℕ)),
        c ≠ [] ∧ ∀ i ∈ c, i < ([2 / 3] : List ℚ).length) ∧
      (∀ x ∈ ([2 / 3] : List ℚ), x = 2 / 3)) ∧
    (bootstrapCI [2 / 3] [[0], [0], [0]] = (meanQ [2 / 3], meanQ [2 / 3]) ∧
      meanQ [2 / 3] = 2 / 3) :=
  ⟨⟨by simp, by simp, by simp, by simp⟩,
    identical_scores_degenerate_interval [2 / 3] [[0], [0], [0]] (2 / 3)
      (by simp) (by simp) (by simp) (by simp)⟩

end Biobench
